import Mathlib

/-
  Verification of the server-side authentication / authorization core of
  InvenStock (lib/auth-server.ts together with the auth type definitions).

  The TypeScript functions are shallowly embedded as pure Lean functions:
  the Prisma-backed relational store becomes an explicit `Store` value whose
  query operations return `Except Unit _` (an `error` models the adapter
  raising), the JWT verifier becomes a `Codec` function parameter, and the
  try/catch blocks of the source become explicit matches on `Except`.
-/

namespace InvenStock

/-- User account status, mirroring the `UserStatus` enum of types/auth.d.ts. -/
inductive UserStatus where
  | PENDING
  | ACTIVE
  | SUSPENDED
  | INACTIVE
deriving DecidableEq, Repr

/-- Global catalog permission entry (`Permission` in types/auth.d.ts); only
the fields the server code reads are kept. -/
structure Permission where
  id : String
  name : String
deriving DecidableEq, Repr

/-- Role-to-permission grant row (`OrganizationRolePermission`): references a
catalog permission with an `allowed` boolean. -/
structure RolePermission where
  id : String
  allowed : Bool
  permission : Permission
deriving DecidableEq, Repr

/-- Organization role (`OrganizationRole`) with its nested permission grants,
as loaded by the role query's `include` in getServerUserWithOrganization. -/
structure Role where
  id : String
  name : String
  permissions : List RolePermission
deriving DecidableEq, Repr

/-- Public projection of an organization, as selected by the membership
query's `include` (id, name, slug, status, timezone, currency). -/
structure Organization where
  id : String
  name : String
  slug : String
  status : String
  timezone : String
  currency : String
deriving DecidableEq, Repr

/-- The value getServerUser returns (`JWTUser` of lib/auth): identity fields
plus the optional organizationId the JWT payload type declares. -/
structure JWTUser where
  userId : String
  email : Option String
  username : Option String
  firstName : String
  lastName : String
  organizationId : Option String
deriving DecidableEq, Repr

/-- Decoded JWT payload (`JWTPayload` of types/auth.d.ts), the result of a
successful verifyToken call. -/
structure JWTPayload where
  userId : String
  username : Option String
  email : Option String
  organizationId : Option String
deriving DecidableEq, Repr

/-- Row of the `user` table, restricted to the fields getServerUser selects. -/
structure UserRow where
  id : String
  email : Option String
  username : Option String
  firstName : String
  lastName : String
  status : UserStatus
  isActive : Bool
deriving DecidableEq, Repr

/-- Row of the `organizationUser` (membership) table with its included
organization projection, as returned by the membership findFirst query. -/
structure MembershipRow where
  userId : String
  organizationId : String
  isActive : Bool
  organization : Organization
deriving DecidableEq, Repr

/-- Row of the `organizationUserRole` table with its included role (and the
role's permission grants), as returned by the role findUnique query. -/
structure RoleAssignmentRow where
  organizationId : String
  userId : String
  isActive : Bool
  role : Role
deriving DecidableEq, Repr

/-- The relational store behind the Prisma adapter: table contents plus one
failure flag per query site, a `true` flag modelling the adapter raising on
that query (connectivity loss, query failure). -/
structure Store where
  users : List UserRow
  memberships : List MembershipRow
  roleAssignments : List RoleAssignmentRow
  userQueryFails : Bool
  membershipQueryFails : Bool
  roleQueryFails : Bool

/-- prisma.user.findUnique on id (getServerUser lines 29-40). -/
def Store.findUserById (s : Store) (id : String) : Except Unit (Option UserRow) :=
  if s.userQueryFails then Except.error () else
  Except.ok (s.users.find? (fun u => u.id == id))

/-- prisma.organizationUser.findFirst on (userId, organizationId, isActive)
(getServerUserWithOrganization lines 128-146, validateOrganizationAccess). -/
def Store.findActiveMembership (s : Store) (userId organizationId : String) :
    Except Unit (Option MembershipRow) :=
  if s.membershipQueryFails then Except.error () else
  Except.ok (s.memberships.find? (fun m =>
    m.userId == userId && m.organizationId == organizationId && m.isActive))

/-- prisma.organizationUserRole.findUnique on the (organizationId, userId)
compound key filtered by isActive (getServerUserWithOrganization lines
153-172). -/
def Store.findActiveRoleAssignment (s : Store) (organizationId userId : String) :
    Except Unit (Option RoleAssignmentRow) :=
  if s.roleQueryFails then Except.error () else
  Except.ok (s.roleAssignments.find? (fun r =>
    r.organizationId == organizationId && r.userId == userId && r.isActive))

/-- JavaScript truthiness of an optional string: undefined, null and the
empty string are falsy. -/
def strTruthy : Option String → Bool
  | none => false
  | some s => s != ""

/-- The JavaScript `a || b` idiom over optional strings (line 120 of the
source: `organizationId || user.organizationId`). -/
def jsOr (a b : Option String) : Option String :=
  if strTruthy a then a else b

/-- The `user.username || undefined` idiom of getServerUser line 49: a falsy
value becomes undefined. -/
def strOrUndefined (s : Option String) : Option String :=
  if strTruthy s then s else none

/-- The token codec (verifyToken of lib/auth, external to the embedded file):
from the raw token either a raised error or a decoded payload, `none`
standing for verification failure. -/
abbrev Codec : Type := String → Except Unit (Option JWTPayload)

/-- Body of getServerUser before its try/catch (lib/auth-server.ts lines
13-52): read the auth-token cookie, verify it, re-check the user row's
isActive and status against the store, and rebuild the JWTUser value. The
object literal at lines 46-52 carries no organizationId field, so the
returned user's organizationId is always `none`. -/
def getServerUserExc (cookieToken : Option String) (codec : Codec) (s : Store) :
    Except Unit (Option JWTUser) :=
  match cookieToken with
  | none => Except.ok none
  | some token =>
    if token == "" then Except.ok none else
    match codec token with
    | Except.error e => Except.error e
    | Except.ok none => Except.ok none
    | Except.ok (some payload) =>
      if payload.userId == "" then Except.ok none else
      match s.findUserById payload.userId with
      | Except.error e => Except.error e
      | Except.ok none => Except.ok none
      | Except.ok (some user) =>
        if !user.isActive || user.status != UserStatus.ACTIVE then Except.ok none else
        Except.ok (some
          { userId := user.id
            email := user.email
            username := strOrUndefined user.username
            firstName := user.firstName
            lastName := user.lastName
            organizationId := none })

/-- getServerUser (lines 11-57): the whole body is wrapped in try/catch whose
catch logs and returns null, so every raised error becomes `none`. -/
def getServerUser (cookieToken : Option String) (codec : Codec) (s : Store) :
    Option JWTUser :=
  match getServerUserExc cookieToken codec s with
  | Except.ok r => r
  | Except.error _ => none

/-- The record getServerUserWithOrganization resolves: user plus nullable
organization and role. -/
structure OrgContext where
  user : JWTUser
  organization : Option Organization
  role : Option Role
deriving DecidableEq, Repr

/-- The try block of getServerUserWithOrganization (lines 126-178): membership
findFirst, early `return null` on a miss, role findUnique, and the final
record with `role: userRole?.role || null`. -/
def getServerUserWithOrgExc (user : JWTUser) (targetOrgId : String) (s : Store) :
    Except Unit (Option OrgContext) :=
  match s.findActiveMembership user.userId targetOrgId with
  | Except.error e => Except.error e
  | Except.ok none => Except.ok none
  | Except.ok (some orgUser) =>
    match s.findActiveRoleAssignment targetOrgId user.userId with
    | Except.error e => Except.error e
    | Except.ok userRole =>
      Except.ok (some
        { user := user
          organization := some orgUser.organization
          role := userRole.map RoleAssignmentRow.role })

/-- getServerUserWithOrganization (lines 108-183): resolve the user, pick the
target organization id (`organizationId || user.organizationId`), return the
no-context record when it is falsy, otherwise run the membership and role
queries; the catch at lines 179-182 turns a raised store error into the same
no-context record. -/
def getServerUserWithOrganization (organizationId : Option String)
    (cookieToken : Option String) (codec : Codec) (s : Store) : Option OrgContext :=
  match getServerUser cookieToken codec s with
  | none => none
  | some user =>
    match jsOr organizationId user.organizationId with
    | none => some { user := user, organization := none, role := none }
    | some orgId =>
      if orgId == "" then some { user := user, organization := none, role := none } else
      match getServerUserWithOrgExc user orgId s with
      | Except.ok r => r
      | Except.error _ => some { user := user, organization := none, role := none }

/-- The category taken by `permission.split('.')` destructured to its first
element (line 209): the part of the permission name before the first dot. -/
def categoryOf (p : String) : String :=
  (p.splitOn ".").headD ""

/-- The permission check of hasPermission over an already resolved context
(lines 194-227): deny without a context or role, then check the exact grant,
the `<category>.*` grant and the `*` grant, each requiring `allowed`. -/
def hasPermissionCtx (context : Option OrgContext) (permission : String) : Bool :=
  match context with
  | none => false
  | some ctx =>
    match ctx.role with
    | none => false
    | some role =>
      let hasDirectPermission := role.permissions.any (fun rp =>
        rp.permission.name == permission && rp.allowed)
      if hasDirectPermission then true else
      let wildcardPermission := categoryOf permission ++ ".*"
      let hasWildcardPermission := role.permissions.any (fun rp =>
        rp.permission.name == wildcardPermission && rp.allowed)
      if hasWildcardPermission then true else
      role.permissions.any (fun rp => rp.permission.name == "*" && rp.allowed)

/-- hasPermission (lines 188-228): resolve the organization context, then run
the three-stage grant check. -/
def hasPermission (permission : String) (organizationId : Option String)
    (cookieToken : Option String) (codec : Codec) (s : Store) : Bool :=
  hasPermissionCtx (getServerUserWithOrganization organizationId cookieToken codec s)
    permission

/-- requireServerAuth (lines 95-103): throw `Authentication required` when no
user resolves. -/
def requireServerAuth (cookieToken : Option String) (codec : Codec) (s : Store) :
    Except String JWTUser :=
  match getServerUser cookieToken codec s with
  | none => Except.error "Authentication required"
  | some user => Except.ok user

/-- requirePermission (lines 233-242): throw `Permission denied: <name>` when
hasPermission denies. -/
def requirePermission (permission : String) (organizationId : Option String)
    (cookieToken : Option String) (codec : Codec) (s : Store) : Except String Unit :=
  if hasPermission permission organizationId cookieToken codec s then Except.ok ()
  else Except.error ("Permission denied: " ++ permission)

/-- validateOrganizationAccess (lines 277-295): true exactly when the active
membership findFirst returns a row; the catch turns a raised store error into
`false`. -/
def validateOrganizationAccess (userId organizationId : String) (s : Store) : Bool :=
  match s.findActiveMembership userId organizationId with
  | Except.ok orgUser => orgUser.isSome
  | Except.error _ => false

/-- Concrete organization used by the witnesses below. -/
def orgA : Organization :=
  { id := "orgA", name := "Org A", slug := "org-a", status := "ACTIVE",
    timezone := "UTC", currency := "USD" }

/-- Concrete active user row used by the witnesses below. -/
def userU1 : UserRow :=
  { id := "u1", email := some "u1@example.com", username := some "u1",
    firstName := "U", lastName := "One", status := UserStatus.ACTIVE,
    isActive := true }

/-- Concrete decoded payload for user u1, embedding organization orgA. -/
def payloadU1 : JWTPayload :=
  { userId := "u1", username := some "u1", email := none,
    organizationId := some "orgA" }

/-- Concrete codec: the token `tok` decodes to payloadU1, anything else fails
verification. -/
def codec1 : Codec := fun t =>
  if t == "tok" then Except.ok (some payloadU1) else Except.ok none

/-- The JWTUser value getServerUser rebuilds for userU1 (organizationId is
absent from the object literal, hence `none`). -/
def resolvedU1 : JWTUser :=
  { userId := "u1", email := some "u1@example.com", username := some "u1",
    firstName := "U", lastName := "One", organizationId := none }

/-- A store with no rows at all and no failures. -/
def emptyStore : Store :=
  { users := [], memberships := [], roleAssignments := [],
    userQueryFails := false, membershipQueryFails := false,
    roleQueryFails := false }

/-- A store holding the active user u1 whose membership query raises. -/
def errStore : Store :=
  { users := [userU1], memberships := [], roleAssignments := [],
    userQueryFails := false, membershipQueryFails := true,
    roleQueryFails := false }

/-- A store where u1's membership in orgA exists but is inactive. -/
def inactiveMembershipStore : Store :=
  { users := [userU1],
    memberships := [{ userId := "u1", organizationId := "orgA",
                      isActive := false, organization := orgA }],
    roleAssignments := [],
    userQueryFails := false, membershipQueryFails := false,
    roleQueryFails := false }

theorem ite_or_helper (a b c : Bool) :
    ((if a then true else if b then true else c) = true) ↔
      (a = true ∨ b = true ∨ c = true) := by
  cases a <;> cases b <;> cases c <;> simp

theorem hasPermissionCtx_eq_true_iff (context : Option OrgContext) (permission : String) :
    hasPermissionCtx context permission = true ↔
      ∃ ctx role, context = some ctx ∧ ctx.role = some role ∧
        ∃ rp ∈ role.permissions, rp.allowed = true ∧
          (rp.permission.name = permission ∨
           rp.permission.name = categoryOf permission ++ ".*" ∨
           rp.permission.name = "*") := by
  cases context with
  | none => simp [hasPermissionCtx]
  | some ctx =>
    cases hrole : ctx.role with
    | none => simp [hasPermissionCtx, hrole]
    | some role =>
      simp only [hasPermissionCtx, hrole]
      rw [ite_or_helper]
      simp only [List.any_eq_true, Bool.and_eq_true, beq_iff_eq]
      constructor
      · rintro (⟨rp, hm, hn, ha⟩ | ⟨rp, hm, hn, ha⟩ | ⟨rp, hm, hn, ha⟩)
        · exact ⟨ctx, role, rfl, hrole, rp, hm, ha, Or.inl hn⟩
        · exact ⟨ctx, role, rfl, hrole, rp, hm, ha, Or.inr (Or.inl hn)⟩
        · exact ⟨ctx, role, rfl, hrole, rp, hm, ha, Or.inr (Or.inr hn)⟩
      · rintro ⟨ctx2, role2, hctx2, hrole2, rp, hm, ha, hn⟩
        obtain rfl : ctx2 = ctx := by
          exact (Option.some_inj.mp hctx2.symm)
        have hr2 : role2 = role := by
          rw [hrole] at hrole2
          exact (Option.some_inj.mp hrole2).symm
        subst hr2
        rcases hn with hn | hn | hn
        · exact Or.inl ⟨rp, hm, hn, ha⟩
        · exact Or.inr (Or.inl ⟨rp, hm, hn, ha⟩)
        · exact Or.inr (Or.inr ⟨rp, hm, hn, ha⟩)

/-- C1: hasPermission is true exactly when the resolved context carries a
non-null role having some grant with allowed = true whose permission name is
the requested name, the category wildcard built from the part of the name
before the first dot, or the global wildcard; in particular a null role
always denies. -/
theorem hasPermission_iff_grant (permission : String)
    (organizationId cookieToken : Option String) (codec : Codec) (s : Store) :
    hasPermission permission organizationId cookieToken codec s = true ↔
      ∃ ctx role,
        getServerUserWithOrganization organizationId cookieToken codec s = some ctx ∧
        ctx.role = some role ∧
        ∃ rp ∈ role.permissions, rp.allowed = true ∧
          (rp.permission.name = permission ∨
           rp.permission.name = categoryOf permission ++ ".*" ∨
           rp.permission.name = "*") :=
  hasPermissionCtx_eq_true_iff
    (getServerUserWithOrganization organizationId cookieToken codec s) permission

theorem getServerUserWithOrganization_eq (arg cookieToken : Option String)
    (codec : Codec) (s : Store) (u : JWTUser) (orgId : String)
    (hu : getServerUser cookieToken codec s = some u)
    (htarget : jsOr arg u.organizationId = some orgId)
    (hne : orgId ≠ "") :
    getServerUserWithOrganization arg cookieToken codec s =
      (match getServerUserWithOrgExc u orgId s with
       | Except.ok r => r
       | Except.error _ => some { user := u, organization := none, role := none }) := by
  unfold getServerUserWithOrganization
  rw [hu]
  simp only []
  rw [htarget]
  simp [hne]

/-- C2 counterexample: with the membership query raising, the value
validateOrganizationAccess returns is `false`, the very value it returns on a
healthy store holding no membership, and getServerUserWithOrganization
returns the plain no-context record — so at a concrete input a store failure
is returned as the same value as an access denial, with no distinct
store-error outcome. -/
theorem storeError_counterexample :
    validateOrganizationAccess "u1" "orgA" errStore = false ∧
    validateOrganizationAccess "u1" "orgA" emptyStore = false ∧
    getServerUserWithOrganization (some "orgA") (some "tok") codec1 errStore =
      some { user := resolvedU1, organization := none, role := none } := by
  decide

/-- C2 amended: a raised store error is caught locally and coerced to the
denial-shaped values: validateOrganizationAccess returns `false` (the same
value as no membership) and getServerUserWithOrganization returns the
no-context record, so no distinct store-error outcome reaches the caller. -/
theorem storeError_coerced (userId organizationId orgId : String)
    (arg cookieToken : Option String) (codec : Codec) (s : Store) (u : JWTUser)
    (hfail : s.membershipQueryFails = true) :
    validateOrganizationAccess userId organizationId s = false ∧
    (getServerUser cookieToken codec s = some u →
      jsOr arg u.organizationId = some orgId →
      orgId ≠ "" →
      getServerUserWithOrganization arg cookieToken codec s =
        some { user := u, organization := none, role := none }) := by
  constructor
  · unfold validateOrganizationAccess Store.findActiveMembership
    rw [hfail]
    rfl
  · intro hu htarget hne
    rw [getServerUserWithOrganization_eq arg cookieToken codec s u orgId hu htarget hne]
    unfold getServerUserWithOrgExc Store.findActiveMembership
    rw [hfail]
    rfl

theorem storeError_coerced_witness :
    errStore.membershipQueryFails = true ∧
    validateOrganizationAccess "u1" "orgA" errStore = false ∧
    getServerUserWithOrganization (some "orgA") (some "tok") codec1 errStore =
      some { user := resolvedU1, organization := none, role := none } := by
  have h := storeError_coerced "u1" "orgA" "orgA" (some "orgA") (some "tok") codec1
    errStore resolvedU1 rfl
  exact ⟨rfl, h.1, h.2 (by decide) rfl (by decide)⟩

/-- A store with the active user u1 and no memberships, all queries healthy. -/
def noMembershipStore : Store :=
  { users := [userU1], memberships := [], roleAssignments := [],
    userQueryFails := false, membershipQueryFails := false,
    roleQueryFails := false }

/-- C3: when the store holds no active membership row for the resolved user
and the requested organization, getServerUserWithOrganization returns the
not-found outcome `none`; moreover whatever it returns, any organization in
the result has the requested id (under referential integrity of the nested
organization of each membership row) and any role in the result comes from a
role assignment of the requested organization. -/
theorem noMembership_notFound (arg cookieToken : Option String) (codec : Codec)
    (s : Store) (u : JWTUser) (orgId : String)
    (hu : getServerUser cookieToken codec s = some u)
    (htarget : jsOr arg u.organizationId = some orgId)
    (hne : orgId ≠ "")
    (hok : s.membershipQueryFails = false) :
    ((∀ m ∈ s.memberships,
        ¬(m.userId = u.userId ∧ m.organizationId = orgId ∧ m.isActive = true)) →
      getServerUserWithOrganization arg cookieToken codec s = none) ∧
    (∀ ctx org, getServerUserWithOrganization arg cookieToken codec s = some ctx →
      ctx.organization = some org →
      (∀ m ∈ s.memberships, m.organization.id = m.organizationId) →
      org.id = orgId) ∧
    (∀ ctx r, getServerUserWithOrganization arg cookieToken codec s = some ctx →
      ctx.role = some r →
      ∃ ra ∈ s.roleAssignments, ra.organizationId = orgId ∧ ra.role = r) := by
  have hmain := getServerUserWithOrganization_eq arg cookieToken codec s u orgId
    hu htarget hne
  cases hfind : s.memberships.find? (fun m =>
      m.userId == u.userId && m.organizationId == orgId && m.isActive) with
  | none =>
    have hres : getServerUserWithOrganization arg cookieToken codec s = none := by
      rw [hmain]
      unfold getServerUserWithOrgExc Store.findActiveMembership
      rw [hok, hfind]
      rfl
    refine ⟨fun _ => hres, ?_, ?_⟩
    · intro ctx org hctx
      rw [hres] at hctx
      exact absurd hctx (by simp)
    · intro ctx r hctx
      rw [hres] at hctx
      exact absurd hctx (by simp)
  | some m =>
    have hmemm : m ∈ s.memberships := List.mem_of_find?_eq_some hfind
    have hpred := List.find?_some hfind
    rw [Bool.and_eq_true, Bool.and_eq_true, beq_iff_eq, beq_iff_eq] at hpred
    have hcontra1 : (∀ x ∈ s.memberships,
        ¬(x.userId = u.userId ∧ x.organizationId = orgId ∧ x.isActive = true)) → False :=
      fun hnone => hnone m hmemm ⟨hpred.1.1, hpred.1.2, hpred.2⟩
    cases hrq : s.roleQueryFails with
    | true =>
      have hres : getServerUserWithOrganization arg cookieToken codec s =
          some { user := u, organization := none, role := none } := by
        rw [hmain]
        unfold getServerUserWithOrgExc Store.findActiveMembership
          Store.findActiveRoleAssignment
        rw [hok, hfind, hrq]
        rfl
      refine ⟨fun hnone => (hcontra1 hnone).elim, ?_, ?_⟩
      · intro ctx org hctx horg _
        rw [hres] at hctx
        rw [← Option.some_inj.mp hctx] at horg
        exact absurd horg (by simp)
      · intro ctx r hctx hr
        rw [hres] at hctx
        rw [← Option.some_inj.mp hctx] at hr
        exact absurd hr (by simp)
    | false =>
      have hres : getServerUserWithOrganization arg cookieToken codec s =
          some { user := u, organization := some m.organization,
                 role := (s.roleAssignments.find? (fun r =>
                   r.organizationId == orgId && r.userId == u.userId && r.isActive)).map
                   RoleAssignmentRow.role } := by
        rw [hmain]
        unfold getServerUserWithOrgExc Store.findActiveMembership
          Store.findActiveRoleAssignment
        rw [hok, hfind, hrq]
        rfl
      refine ⟨fun hnone => (hcontra1 hnone).elim, ?_, ?_⟩
      · intro ctx org hctx horg hint
        rw [hres] at hctx
        rw [← Option.some_inj.mp hctx] at horg
        have horg2 : m.organization = org := by
          simpa using horg
        rw [← horg2, hint m hmemm]
        exact hpred.1.2
      · intro ctx r hctx hr
        rw [hres] at hctx
        rw [← Option.some_inj.mp hctx] at hr
        simp only [Option.map_eq_some'] at hr
        obtain ⟨ra, hra, hrar⟩ := hr
        have hramem : ra ∈ s.roleAssignments := List.mem_of_find?_eq_some hra
        have hrapred := List.find?_some hra
        rw [Bool.and_eq_true, Bool.and_eq_true, beq_iff_eq, beq_iff_eq] at hrapred
        exact ⟨ra, hramem, hrapred.1.1, hrar⟩

theorem noMembership_notFound_witness :
    ("orgA" : String) ≠ "" ∧
    getServerUserWithOrganization (some "orgA") (some "tok") codec1 noMembershipStore =
      none :=
  ⟨by decide,
   (noMembership_notFound (some "orgA") (some "tok") codec1 noMembershipStore
      resolvedU1 "orgA" (by decide) rfl (by decide) rfl).1 (by decide)⟩

/-- C4: a structurally valid token whose user lookup misses, or hits a row
with isActive = false or a status other than ACTIVE, resolves to the
unauthenticated outcome `none`. -/
theorem inactiveUser_unauthenticated (token : String) (codec : Codec) (s : Store)
    (payload : JWTPayload)
    (htok : token ≠ "")
    (hcodec : codec token = Except.ok (some payload))
    (huid : payload.userId ≠ "")
    (hflag : s.userQueryFails = false)
    (hlookup : s.users.find? (fun r => r.id == payload.userId) = none ∨
      ∃ u, s.users.find? (fun r => r.id == payload.userId) = some u ∧
        (u.isActive = false ∨ u.status ≠ UserStatus.ACTIVE)) :
    getServerUser (some token) codec s = none := by
  unfold getServerUser getServerUserExc Store.findUserById
  simp only []
  rw [hcodec]
  simp [htok, huid, hflag]
  rcases hlookup with h | ⟨u, h, hbad⟩
  · rw [h]
  · rw [h]
    rcases hbad with hb | hb
    · simp [hb]
    · simp [hb, bne_iff_ne]

/-- Concrete suspended user row for the C4 witness. -/
def userU2 : UserRow :=
  { id := "u2", email := none, username := some "u2",
    firstName := "U", lastName := "Two", status := UserStatus.SUSPENDED,
    isActive := true }

/-- Concrete payload for user u2. -/
def payloadU2 : JWTPayload :=
  { userId := "u2", username := some "u2", email := none, organizationId := none }

/-- Concrete codec decoding the token tok2 to payloadU2. -/
def codec2 : Codec := fun t =>
  if t == "tok2" then Except.ok (some payloadU2) else Except.ok none

/-- A store holding only the suspended user u2, all queries healthy. -/
def suspendedUserStore : Store :=
  { users := [userU2], memberships := [], roleAssignments := [],
    userQueryFails := false, membershipQueryFails := false,
    roleQueryFails := false }

theorem inactiveUser_unauthenticated_witness :
    ("tok2" : String) ≠ "" ∧
    getServerUser (some "tok2") codec2 suspendedUserStore = none :=
  ⟨by decide,
   inactiveUser_unauthenticated "tok2" codec2 suspendedUserStore payloadU2
     (by decide) rfl (by decide) rfl
     (Or.inr ⟨userU2, by decide, Or.inr (by decide)⟩)⟩

/-- C5: at the failing input the token embeds organizationId orgA while the
stored membership of u1 in orgA is inactive, yet calling with no explicit
organization id yields the no-context record instead of the not-found `none`
the specification requires, because getServerUser rebuilds the user value
without the payload's organizationId, leaving the fallback of line 120 dead. -/
theorem embeddedOrg_fallback_dead :
    payloadU1.organizationId = some "orgA" ∧
    getServerUser (some "tok") codec1 inactiveMembershipStore = some resolvedU1 ∧
    resolvedU1.organizationId = none ∧
    getServerUserWithOrganization none (some "tok") codec1 inactiveMembershipStore =
      some { user := resolvedU1, organization := none, role := none } ∧
    getServerUserWithOrganization none (some "tok") codec1 inactiveMembershipStore ≠
      none := by
  decide

/-- C6: every failing requirePermission call produces the distinct
permission-denied error value for the requested name, a value different from
the authentication-required error, which requireServerAuth produces exactly
when the resolver yields the unauthenticated outcome. -/
theorem requirePermission_distinct (permission : String)
    (organizationId cookieToken : Option String) (codec : Codec) (s : Store) :
    (requirePermission permission organizationId cookieToken codec s = Except.ok () ∨
      requirePermission permission organizationId cookieToken codec s =
        Except.error ("Permission denied: " ++ permission)) ∧
    "Permission denied: " ++ permission ≠ "Authentication required" ∧
    (requireServerAuth cookieToken codec s = Except.error "Authentication required" ↔
      getServerUser cookieToken codec s = none) := by
  refine ⟨?_, ?_, ?_⟩
  · unfold requirePermission
    by_cases h : hasPermission permission organizationId cookieToken codec s
    · left
      simp [h]
    · right
      simp [h]
  · intro hcontra
    have hdata : ("Permission denied: " ++ permission).data.head? = some 'P' := rfl
    rw [hcontra] at hdata
    exact absurd hdata (by decide)
  · unfold requireServerAuth
    cases hu : getServerUser cookieToken codec s <;> simp

/-- C7: an authenticated user with no explicit organization argument and no
organization id on the resolved user yields the no-context record, a value
distinct from the not-found outcome `none`. -/
theorem noTarget_noContext (cookieToken : Option String) (codec : Codec) (s : Store)
    (u : JWTUser)
    (hu : getServerUser cookieToken codec s = some u)
    (horg : u.organizationId = none) :
    getServerUserWithOrganization none cookieToken codec s =
      some { user := u, organization := none, role := none } ∧
    (some { user := u, organization := none, role := none } : Option OrgContext) ≠
      none := by
  constructor
  · unfold getServerUserWithOrganization
    rw [hu]
    simp [jsOr, strTruthy, horg]
  · simp

theorem noTarget_noContext_witness :
    getServerUser (some "tok") codec1 noMembershipStore = some resolvedU1 ∧
    getServerUserWithOrganization none (some "tok") codec1 noMembershipStore =
      some { user := resolvedU1, organization := none, role := none } :=
  ⟨by decide,
   (noTarget_noContext (some "tok") codec1 noMembershipStore resolvedU1
      (by decide) rfl).1⟩

/-- C8: an active membership with no active role assignment resolves to a
context whose role is null rather than failing, and every permission check
against that resolution denies. -/
theorem memberNoRole_denies (arg cookieToken : Option String) (codec : Codec)
    (s : Store) (u : JWTUser) (orgId : String) (m : MembershipRow)
    (hu : getServerUser cookieToken codec s = some u)
    (htarget : jsOr arg u.organizationId = some orgId)
    (hne : orgId ≠ "")
    (hmflag : s.membershipQueryFails = false)
    (hmem : s.memberships.find? (fun x =>
      x.userId == u.userId && x.organizationId == orgId && x.isActive) = some m)
    (hrflag : s.roleQueryFails = false)
    (hrole : s.roleAssignments.find? (fun r =>
      r.organizationId == orgId && r.userId == u.userId && r.isActive) = none) :
    getServerUserWithOrganization arg cookieToken codec s =
      some { user := u, organization := some m.organization, role := none } ∧
    ∀ p, hasPermission p arg cookieToken codec s = false := by
  have hres : getServerUserWithOrganization arg cookieToken codec s =
      some { user := u, organization := some m.organization, role := none } := by
    rw [getServerUserWithOrganization_eq arg cookieToken codec s u orgId hu htarget hne]
    unfold getServerUserWithOrgExc Store.findActiveMembership
      Store.findActiveRoleAssignment
    rw [hmflag, hmem, hrflag, hrole]
    rfl
  refine ⟨hres, ?_⟩
  intro p
  unfold hasPermission
  rw [hres]
  rfl

/-- A store where u1 is an active member of orgA with no role assignment. -/
def memberNoRoleStore : Store :=
  { users := [userU1],
    memberships := [{ userId := "u1", organizationId := "orgA",
                      isActive := true, organization := orgA }],
    roleAssignments := [],
    userQueryFails := false, membershipQueryFails := false,
    roleQueryFails := false }

theorem memberNoRole_denies_witness :
    ("orgA" : String) ≠ "" ∧
    getServerUserWithOrganization (some "orgA") (some "tok") codec1 memberNoRoleStore =
      some { user := resolvedU1, organization := some orgA, role := none } ∧
    hasPermission "products.create" (some "orgA") (some "tok") codec1
      memberNoRoleStore = false := by
  have h := memberNoRole_denies (some "orgA") (some "tok") codec1 memberNoRoleStore
    resolvedU1 "orgA"
    { userId := "u1", organizationId := "orgA", isActive := true, organization := orgA }
    (by decide) rfl (by decide) rfl (by decide) rfl (by decide)
  exact ⟨by decide, h.1, h.2 "products.create"⟩

/-- The findUnique user read as a state transition over the store: a read
returns the store unchanged, so any write the function performed would show
in the returned store. -/
def Store.findUserByIdRead (s : Store) (id : String) :
    Except Unit (Option UserRow) × Store :=
  (s.findUserById id, s)

/-- getServerUser rendered with the store threaded through its single store
operation, recording the store state each step leaves behind. -/
def getServerUserSt (cookieToken : Option String) (codec : Codec) (s : Store) :
    Option JWTUser × Store :=
  match cookieToken with
  | none => (none, s)
  | some token =>
    if token == "" then (none, s) else
    match codec token with
    | Except.error _ => (none, s)
    | Except.ok none => (none, s)
    | Except.ok (some payload) =>
      if payload.userId == "" then (none, s) else
      match s.findUserByIdRead payload.userId with
      | (Except.error _, s1) => (none, s1)
      | (Except.ok none, s1) => (none, s1)
      | (Except.ok (some user), s1) =>
        if !user.isActive || user.status != UserStatus.ACTIVE then (none, s1) else
        (some { userId := user.id
                email := user.email
                username := strOrUndefined user.username
                firstName := user.firstName
                lastName := user.lastName
                organizationId := none }, s1)

theorem getServerUserSt_eq (cookieToken : Option String) (codec : Codec)
    (s : Store) :
    getServerUserSt cookieToken codec s = (getServerUser cookieToken codec s, s) := by
  unfold getServerUserSt getServerUser getServerUserExc Store.findUserByIdRead
  cases cookieToken with
  | none => rfl
  | some token =>
    simp only []
    by_cases ht : (token == "") = true
    · simp [ht]
    · simp only [ht, Bool.false_eq_true, if_false]
      cases hc : codec token with
      | error e => rfl
      | ok p =>
        cases p with
        | none => rfl
        | some payload =>
          simp only []
          by_cases hp : (payload.userId == "") = true
          · simp [hp]
          · simp only [hp, Bool.false_eq_true, if_false]
            cases hf : s.findUserById payload.userId with
            | error e => rfl
            | ok r =>
              cases r with
              | none => rfl
              | some user =>
                simp only []
                by_cases hs : (!user.isActive || user.status != UserStatus.ACTIVE) = true
                · simp [hs]
                · simp [hs]

/-- C9: the store state getServerUser leaves behind is exactly the input
store (the call performs no write), a second call on that resulting state
returns the identical result, and the threaded rendering agrees with
getServerUser itself. -/
theorem getServerUser_readonly_idempotent (cookieToken : Option String)
    (codec : Codec) (s : Store) :
    (getServerUserSt cookieToken codec s).2 = s ∧
    (getServerUserSt cookieToken codec ((getServerUserSt cookieToken codec s).2)).1 =
      (getServerUserSt cookieToken codec s).1 ∧
    (getServerUserSt cookieToken codec s).1 = getServerUser cookieToken codec s := by
  have h := getServerUserSt_eq cookieToken codec s
  refine ⟨?_, ?_, ?_⟩ <;> simp [h]

/-- A codec whose verification raises on every token. -/
def codecRaises : Codec := fun _ => Except.error ()

/-- C10: whenever the underlying pipeline raises (any behaviour of the codec
or the store), the public getServerUser returns `none`, the very value
returned when no token is present, so a dependency failure is
indistinguishable from not being logged in. -/
theorem getServerUser_never_raises (cookieToken : Option String) (codec : Codec)
    (s : Store) (e : Unit)
    (herr : getServerUserExc cookieToken codec s = Except.error e) :
    getServerUser cookieToken codec s = none ∧
    getServerUser none codec s = none := by
  constructor
  · unfold getServerUser
    rw [herr]
  · rfl

theorem getServerUser_never_raises_witness :
    getServerUserExc (some "tok") codecRaises emptyStore = Except.error () ∧
    getServerUser (some "tok") codecRaises emptyStore = none ∧
    getServerUser none codecRaises emptyStore = none :=
  ⟨rfl,
   (getServerUser_never_raises (some "tok") codecRaises emptyStore () rfl).1,
   (getServerUser_never_raises (some "tok") codecRaises emptyStore () rfl).2⟩

end InvenStock
